import Mathlib

/-!
Verification of the resolution core of `doc-and-pony-show` (`src/bin/dapsd.rs`):
the host-based language-name parsing, the two-level project registry, the
registration handler, and the path-resolution / sandbox-containment logic.

Paths are modelled the way Rust's `std::path` treats them on Unix: a `PathBuf`
is an absolute/relative flag plus a list of components; iterating a `Path`
normalises away empty segments and interior `.` segments.
-/

namespace Daps

/-- Splits a character list on the separator character, keeping empty
segments (they are filtered afterwards, matching `std::path::Components`
which ignores repeated and trailing separators). -/
def splitOnSlash : List Char → List (List Char)
  | [] => [[]]
  | c :: rest =>
    let r := splitOnSlash rest
    if c = '/' then [] :: r
    else
      match r with
      | [] => [[c]]
      | seg :: segs => (c :: seg) :: segs

/-- The non-empty slash-separated segments of a path string. -/
def rawSegments (s : String) : List String :=
  ((splitOnSlash s.data).map (fun cs => String.mk cs)).filter (fun t => t ≠ "")

/-- A Unix path is absolute exactly when it begins with the separator. -/
def isAbsolute (s : String) : Bool :=
  match s.data with
  | [] => false
  | c :: _ => c = '/'

/-- One component of a Rust `Path`, as yielded by `Path::iter` (which prints
`RootDir` as `/`, `CurDir` as `.`, `ParentDir` as `..`). -/
inductive Component where
  | rootDir
  | curDir
  | parentDir
  | normal (s : String)
deriving DecidableEq

/-- Classifies a non-`.` raw segment the way `std::path::Components` does. -/
def segToComponent (s : String) : Component :=
  if s = ".." then Component.parentDir else Component.normal s

/-- The component sequence of `Path::new(s)` on Unix: a leading `RootDir` for
absolute paths; `.` segments normalised away except a leading one on a
relative path; `..` kept as `ParentDir`; everything else `Normal`. -/
def pathComponents (s : String) : List Component :=
  let segs := rawSegments s
  if isAbsolute s then
    Component.rootDir :: (segs.filter (fun t => t ≠ ".")).map segToComponent
  else
    match segs with
    | [] => []
    | t :: rest =>
      if t = "." then
        Component.curDir :: (rest.filter (fun u => u ≠ ".")).map segToComponent
      else
        ((t :: rest).filter (fun u => u ≠ ".")).map segToComponent

/-- Model of `std::path::PathBuf`: an absolute/relative flag plus the list of
stored components (segment strings). -/
structure PathBuf where
  absolute : Bool
  comps : List String
deriving DecidableEq

/-- Model of `PathBuf::pop`: removes the last component if there is one;
a bare root (or the empty relative path) is left unchanged. -/
def PathBuf.pop (p : PathBuf) : PathBuf :=
  if p.comps = [] then p else { p with comps := p.comps.dropLast }

/-- Model of `PathBuf::push` with a single normal component. -/
def PathBuf.pushNormal (p : PathBuf) (s : String) : PathBuf :=
  { p with comps := p.comps ++ [s] }

/-- The component strings a `Path` iterator yields for this `PathBuf`
(`/` stands for the `RootDir` component). -/
def PathBuf.componentStrings (p : PathBuf) : List String :=
  (if p.absolute then ["/"] else []) ++ p.comps

/-- Model of `Path::starts_with`: component-wise prefix comparison,
so `/docs-evil` does not start with `/docs`. -/
def PathBuf.startsWith (self base : PathBuf) : Bool :=
  List.isPrefixOf base.componentStrings self.componentStrings

/-- HTTP status codes the server uses (`tide::StatusCode`). -/
inductive Status where
  | internalServerError
  | badRequest
  | notFound
  | forbidden
  | ok
deriving DecidableEq

/-- Model of the `LanguageName` newtype from `dapsd.rs`. -/
structure LanguageName where
  name : String
deriving DecidableEq

/-- Model of `LanguageName::as_str`. -/
def LanguageName.as_str (l : LanguageName) : String :=
  l.name

/-- Model of Rust `str::strip_suffix(".docs")`: the host with the 5-character
suffix removed when it ends with `.docs`, and `none` otherwise. -/
def stripDocsSuffix (s : String) : Option String :=
  let r := s.data.reverse
  let suf := ".docs".data.reverse
  if r.take 5 = suf then some (String.mk ((r.drop 5).reverse)) else none

/-- Model of `LanguageName::from_host_name`: a missing host header is an
`InternalServerError`; a host without the `.docs` suffix is a `BadRequest`;
otherwise the language name is the host with the suffix stripped. -/
def LanguageName.from_host_name (host : Option String) :
    Except (Status × String) LanguageName :=
  match host with
  | none => Except.error (Status.internalServerError, "no hostname specified")
  | some h =>
    match stripDocsSuffix h with
    | some language_name => Except.ok ⟨language_name⟩
    | none => Except.error (Status.badRequest, "improper domain name")

/-- Model of the `Project` struct: the registered unit. -/
structure Project where
  language : String
  project_name : String
  directory : PathBuf
deriving DecidableEq

/-- Model of a `Language` entry: its name and its project map
(`HashMap<String, Project>` modelled as an association list). -/
structure Language where
  name : String
  projects : List (String × Project)
deriving DecidableEq

/-- Model of `LanguageDirectory`: the shared registry, a map from language
name to `Language` (`HashMap<String, Language>` as an association list). -/
structure LanguageDirectory where
  languages : List (String × Language)
deriving DecidableEq

/-- Model of `LanguageDirectory::language`: lookup, with a `NotFound` error
when the language has no entry. -/
def LanguageDirectory.language (d : LanguageDirectory) (language_name : LanguageName) :
    Except (Status × String) Language :=
  match d.languages.lookup language_name.as_str with
  | some lang => Except.ok lang
  | none => Except.error (Status.notFound, "language has no registered projects")

/-- Model of `Language::project`: lookup, with a `NotFound` error when the
project has no entry. -/
def Language.project (lang : Language) (project_name : String) :
    Except (Status × String) Project :=
  match lang.projects.lookup project_name with
  | some proj => Except.ok proj
  | none => Except.error (Status.notFound, "Project not found")

/-- The registry observation `serve_page` performs: the language map keyed by
language, then that language's project map keyed by project name. -/
def LanguageDirectory.lookupEntry (d : LanguageDirectory)
    (language project_name : String) : Option Project :=
  (d.languages.lookup language).bind (fun lang => lang.projects.lookup project_name)

/-- One iteration of the loop in `Project::full_path_to`: `.` is skipped,
`..` pops the accumulator, a root component replaces the accumulator with
the filesystem root (`PathBuf::push` of an absolute component), and any
other component is appended verbatim. -/
def resolveStep (acc : PathBuf) (c : Component) : PathBuf :=
  match c with
  | Component.curDir => acc
  | Component.parentDir => acc.pop
  | Component.rootDir => { absolute := true, comps := [] }
  | Component.normal s => acc.pushNormal s

/-- Model of `Project::full_path_to`: fold the request path's components over
the cloned base directory. -/
def Project.full_path_to (proj : Project) (path : String) : PathBuf :=
  (pathComponents path).foldl resolveStep proj.directory

/-- Outcome of `Project::serve_path` before any filesystem access: either the
`Forbidden` response, or the resolved file path handed to the file reader
(whose own not-found / I/O errors are outside this core). -/
inductive ServeVerdict where
  | forbidden
  | serveFile (p : PathBuf)
deriving DecidableEq

/-- Model of `Project::serve_path`: compute the full path and answer
`Forbidden` unless it starts with the registered directory. -/
def Project.serve_path (proj : Project) (path : String) : ServeVerdict :=
  let file_path := proj.full_path_to path
  if PathBuf.startsWith file_path proj.directory = false then
    ServeVerdict.forbidden
  else
    ServeVerdict.serveFile file_path

/-- Outcome of `serve_page` before any filesystem access: an error response
propagated by `?` (with its status and message), the `Forbidden` response, or
the resolved file path. -/
inductive Outcome where
  | err (status : Status) (msg : String)
  | forbidden
  | serveFile (p : PathBuf)
deriving DecidableEq

/-- Model of the `serve_page` handler: parse the language name from the host
header, look up the language, look up the project, then resolve and check the
requested path. Errors propagate in that order. -/
def serve_page (state : LanguageDirectory) (host : Option String)
    (project_name path : String) : Outcome :=
  match LanguageName.from_host_name host with
  | Except.error (st, m) => Outcome.err st m
  | Except.ok language_name =>
    match state.language language_name with
    | Except.error (st, m) => Outcome.err st m
    | Except.ok language =>
      match language.project project_name with
      | Except.error (st, m) => Outcome.err st m
      | Except.ok proj =>
        match proj.serve_path path with
        | ServeVerdict.forbidden => Outcome.forbidden
        | ServeVerdict.serveFile p => Outcome.serveFile p

/-- Joins segments with the separator, for rendering a `PathBuf` the way
`{:?}` does in the registration reply. -/
def joinSegs : List String → String
  | [] => ""
  | [s] => s
  | s :: rest => s ++ "/" ++ joinSegs rest

/-- Debug rendering of a `PathBuf` as Rust's `{:?}` prints it. -/
def PathBuf.render (p : PathBuf) : String :=
  "\"" ++ (if p.absolute then "/" else "") ++ joinSegs p.comps ++ "\""

/-- Model of the `register_dir` handler, given the already-decoded request
body (JSON decoding is the adapter's concern). The handler destructures the
body and returns the confirmation message; it does not touch the shared
state, so the state is returned unchanged. -/
def register_dir (state : LanguageDirectory) (body : Project) :
    LanguageDirectory × String :=
  (state,
    "Registered " ++ body.project_name ++ " with language " ++ body.language ++
      " located at " ++ body.directory.render)

/-- Popping immediately after pushing a normal component restores the path. -/
theorem PathBuf.pop_pushNormal (pb : PathBuf) (s : String) :
    (pb.pushNormal s).pop = pb := by
  simp [PathBuf.pushNormal, PathBuf.pop]

/-- Claim C1: for every base directory and every requested path, `serve_path`
either answers `Forbidden` or serves a file path that is a component-wise
descendant of (or equal to) the base directory; a path outside the base is
never served. -/
theorem c1_sandbox_safety (proj : Project) (path : String) :
    proj.serve_path path = ServeVerdict.forbidden ∨
      ∃ fp, proj.serve_path path = ServeVerdict.serveFile fp ∧
        PathBuf.startsWith fp proj.directory = true := by
  cases h : PathBuf.startsWith (proj.full_path_to path) proj.directory with
  | false =>
    left
    simp [Project.serve_path, h]
  | true =>
    right
    exact ⟨proj.full_path_to path, by simp [Project.serve_path, h], h⟩

/-- Claim C5, counterexample: with base directory `/srv/daps`, resolving the
requested path `..` pops below the base, so the accumulated path does not
retain the base as a component-wise prefix. -/
theorem c5_counterexample :
    Project.full_path_to ⟨"rust", "daps", ⟨true, ["srv", "daps"]⟩⟩ ".." =
        ⟨true, ["srv"]⟩ ∧
      PathBuf.startsWith
          (Project.full_path_to ⟨"rust", "daps", ⟨true, ["srv", "daps"]⟩⟩ "..")
          ⟨true, ["srv", "daps"]⟩ = false := by
  constructor <;> decide

/-- Claim C5, amended: a `..` segment pops the most recently appended
component of the accumulator with no clamp at the base directory — resolving
`..` against any base yields exactly `PathBuf::pop` of the base, which removes
the base's own last component (popping stops only at the filesystem root). -/
theorem c5_parent_pops_below_base (proj : Project) :
    proj.full_path_to ".." = proj.directory.pop := by
  have h : pathComponents ".." = [Component.parentDir] := by decide
  simp [Project.full_path_to, h, resolveStep]

/-- Claim C8: for every project whose resolution of `../../../etc/passwd`
does not stay inside the registered directory, `serve_path` answers
`Forbidden` on that request. -/
theorem c8_passwd_forbidden (proj : Project)
    (h : PathBuf.startsWith (proj.full_path_to "../../../etc/passwd")
        proj.directory = false) :
    proj.serve_path "../../../etc/passwd" = ServeVerdict.forbidden := by
  simp [Project.serve_path, h]

/-- Claim C8, witness: with base directory `/srv/daps` the request
`../../../etc/passwd` resolves to `/etc/passwd`, which fails the containment
check, so the answer is `Forbidden`. -/
theorem c8_passwd_forbidden_witness :
    Project.serve_path ⟨"rust", "daps", ⟨true, ["srv", "daps"]⟩⟩
        "../../../etc/passwd" = ServeVerdict.forbidden :=
  c8_passwd_forbidden ⟨"rust", "daps", ⟨true, ["srv", "daps"]⟩⟩ (by decide)

/-- Claim C9: for every base directory, resolving `a/../a/file.txt` yields
exactly the same path, and the same serve verdict, as resolving
`a/file.txt`. -/
theorem c9_parent_cancellation (proj : Project) :
    proj.full_path_to "a/../a/file.txt" = proj.full_path_to "a/file.txt" ∧
      proj.serve_path "a/../a/file.txt" = proj.serve_path "a/file.txt" := by
  have h1 : pathComponents "a/../a/file.txt" =
      [Component.normal "a", Component.parentDir, Component.normal "a",
        Component.normal "file.txt"] := by decide
  have h2 : pathComponents "a/file.txt" =
      [Component.normal "a", Component.normal "file.txt"] := by decide
  have key : proj.full_path_to "a/../a/file.txt" = proj.full_path_to "a/file.txt" := by
    simp [Project.full_path_to, h1, h2, resolveStep, PathBuf.pop_pushNormal]
  exact ⟨key, by simp [Project.serve_path, key]⟩

/-- Claim C10: a requested path beginning with a `..` segment can resolve
successfully — with base `/srv/daps`, the request `../daps/file.txt` (whose
first component is `..`) resolves to `/srv/daps/file.txt` and passes the
containment check, so a file is served rather than `Forbidden`. -/
theorem c10_leading_parent_can_succeed :
    pathComponents "../daps/file.txt" =
        [Component.parentDir, Component.normal "daps", Component.normal "file.txt"] ∧
      Project.serve_path ⟨"rust", "daps", ⟨true, ["srv", "daps"]⟩⟩
          "../daps/file.txt" =
        ServeVerdict.serveFile ⟨true, ["srv", "daps", "file.txt"]⟩ := by
  constructor <;> decide

/-- Claim C2: the `register_dir` handler never writes to the shared registry —
for every state and request body the state comes back unchanged — and in
particular, after registering (`rust`, `daps`, `/srv/daps`) into the empty
registry, the lookup `serve_page` would perform for (`rust`, `daps`) still
returns `none`, not the registered entry. -/
theorem c2_register_stores_nothing :
    (∀ (st : LanguageDirectory) (body : Project), (register_dir st body).1 = st) ∧
      LanguageDirectory.lookupEntry
          (register_dir ⟨[]⟩ ⟨"rust", "daps", ⟨true, ["srv", "daps"]⟩⟩).1
          "rust" "daps" = none :=
  ⟨fun _ _ => rfl, rfl⟩

/-- Claim C4: `register_dir` performs no input validation and no storage —
a body with empty `language` and empty `project_name` is answered with the
success message, and the registry is left unchanged (there is no error path
after JSON decoding). -/
theorem c4_no_validation_no_storage :
    register_dir ⟨[]⟩ ⟨"", "", ⟨true, ["srv", "daps"]⟩⟩ =
      (⟨[]⟩, "Registered  with language  located at \"/srv/daps\"") := rfl

/-- Claim C3, counterexample: with the host header absent, `serve_page`
answers with an `InternalServerError` (a server-error status), not with the
`BadRequest` status that signals a client addressing error. -/
theorem c3_counterexample :
    serve_page ⟨[]⟩ none "daps" "index.html" =
        Outcome.err Status.internalServerError "no hostname specified" ∧
      Status.internalServerError ≠ Status.badRequest :=
  ⟨rfl, by decide⟩

/-- Claim C3, amended: a host value without the `.docs` suffix is answered
with the `BadRequest` addressing error, while an absent host value is
answered with an `InternalServerError`; both happen before any registry
lookup (the result is the same for every registry state). -/
theorem c3_bad_addressing (reg : LanguageDirectory) (pn path host : String)
    (h : stripDocsSuffix host = none) :
    serve_page reg (some host) pn path =
        Outcome.err Status.badRequest "improper domain name" ∧
      serve_page reg none pn path =
        Outcome.err Status.internalServerError "no hostname specified" := by
  constructor
  · simp [serve_page, LanguageName.from_host_name, h]
  · rfl

/-- Claim C3, witness: the host `rust` (no `.docs` suffix) is answered
`BadRequest` and an absent host is answered `InternalServerError`, on the
empty registry. -/
theorem c3_bad_addressing_witness :
    serve_page ⟨[]⟩ (some "rust") "daps" "index.html" =
        Outcome.err Status.badRequest "improper domain name" ∧
      serve_page ⟨[]⟩ none "daps" "index.html" =
        Outcome.err Status.internalServerError "no hostname specified" :=
  c3_bad_addressing ⟨[]⟩ "daps" "index.html" "rust" (by decide)

/-- Claim C6, counterexample: the host value `.docs` parses successfully and
produces the empty `LanguageName` — suffix stripping is not followed by a
non-emptiness check. -/
theorem c6_counterexample :
    LanguageName.from_host_name (some ".docs") = Except.ok ⟨""⟩ := rfl

/-- Claim C6, amended: host parsing returns exactly the host with the
5-character `.docs` suffix removed, with no non-emptiness check, so the host
value `.docs` yields the empty `LanguageName`. -/
theorem c6_language_name_may_be_empty :
    (∀ h s, stripDocsSuffix h = some s →
        LanguageName.from_host_name (some h) = Except.ok ⟨s⟩) ∧
      LanguageName.from_host_name (some ".docs") = Except.ok ⟨""⟩ := by
  refine ⟨fun h s hs => ?_, rfl⟩
  simp [LanguageName.from_host_name, hs]

/-- Claim C6, witness: the host `rust.docs` yields the language name
`rust`. -/
theorem c6_language_name_witness :
    LanguageName.from_host_name (some "rust.docs") = Except.ok ⟨"rust"⟩ :=
  c6_language_name_may_be_empty.1 "rust.docs" "rust" (by decide)

/-- Claim C7: for every request whose host parses to a language name, if the
registry observation fails — the language is absent, or the language is
present but has no project under the given name — then `serve_page` answers
with a `NotFound` error (never `Forbidden`, never a `BadRequest` addressing
error). -/
theorem c7_not_found_taxonomy (reg : LanguageDirectory) (host pn path : String)
    (ln : LanguageName)
    (hh : LanguageName.from_host_name (some host) = Except.ok ln)
    (hl : reg.lookupEntry ln.name pn = none) :
    ∃ m, serve_page reg (some host) pn path = Outcome.err Status.notFound m := by
  cases e : reg.languages.lookup ln.name with
  | none =>
    refine ⟨"language has no registered projects", ?_⟩
    simp [serve_page, hh, LanguageDirectory.language, LanguageName.as_str, e]
  | some lang =>
    have hp : lang.projects.lookup pn = none := by
      simpa [LanguageDirectory.lookupEntry, e] using hl
    refine ⟨"Project not found", ?_⟩
    simp [serve_page, hh, LanguageDirectory.language, LanguageName.as_str, e,
      Language.project, hp]

/-- Claim C7, witness: on the empty registry, the well-addressed request
(host `rust.docs`, project `daps`) is answered `NotFound`. -/
theorem c7_not_found_witness :
    ∃ m, serve_page ⟨[]⟩ (some "rust.docs") "daps" "index.html" =
      Outcome.err Status.notFound m :=
  c7_not_found_taxonomy ⟨[]⟩ "rust.docs" "daps" "index.html" ⟨"rust"⟩ rfl rfl

end Daps
